import Mathlib

/-
Verification of the compatibility resolver in
service/api-levels/ApiLevelsUtils.cpp (namespace api).

Modelling conventions:
- DexType* identities are Nat (types are interned pointers in the source, so
  pointer equality is identity equality).
- DexString* names are String.
- unordered_map is an association list with unique keys; unordered_set of
  method/field references is a list; erase/emplace become list operations.
- The external collaborators (class/member metadata store, TypeSystem
  hierarchy oracle, java_lang_Object constant) are fields of an Env record,
  as the spec treats them: consumed capabilities.
-/

namespace api

/-- A method prototype: return type plus parameter types (DexProto). -/
structure Proto where
  rtype : Nat
  args : List Nat
deriving DecidableEq

/-- A method reference as stored in FrameworkAPI.mrefs (DexMethodRef:
name and proto; protos are interned so structural equality is identity). -/
structure MethodRef where
  name : String
  proto : Proto
deriving DecidableEq

/-- A method declared on a release class (DexMethod): name, proto and the
public bit of its access flags; only these are consulted by the checks. -/
structure DexMethod where
  name : String
  proto : Proto
  isPublic : Bool
deriving DecidableEq

/-- A field reference as stored in FrameworkAPI.frefs (DexFieldRef). -/
structure FieldRef where
  name : String
  type : Nat
deriving DecidableEq

/-- A field declared on a release class (DexField). -/
structure DexField where
  name : String
  type : Nat
  isPublic : Bool
deriving DecidableEq

/-- FrameworkAPI from ApiLevelsUtils.h: a framework class identity with its
public member surface. -/
structure FrameworkAPI where
  cls : Nat
  mrefs : List MethodRef
  frefs : List FieldRef
deriving DecidableEq

/-- A class definition (DexClass) with the data the resolver consults:
identity, deobfuscated name, externality, interface bit, superclass, and the
four declared member lists. -/
structure DexClass where
  type : Nat
  deobfuscatedName : String
  isExternal : Bool
  isInterface : Bool
  superClass : Nat
  dmethods : List DexMethod
  vmethods : List DexMethod
  sfields : List DexField
  ifields : List DexField
deriving DecidableEq

/-- The external collaborators: the program scope (also backing type_class
lookup), the TypeSystem hierarchy oracle, the textual name of a type
(DexType::str), and the known_types::java_lang_Object constant. -/
structure Env where
  classes : List DexClass
  implementedInterfaces : Nat → List Nat
  allSuperInterfaces : Nat → List Nat
  typeStr : Nat → String
  javaLangObject : Nat

/-- Association-list lookup, the model of unordered_map lookup/count. -/
def lookupM {κ α : Type} [DecidableEq κ] (m : List (κ × α)) (k : κ) : Option α :=
  (m.find? (fun p => decide (p.1 = k))).map (fun p => p.2)

/-- type_class: resolve a type identity to its class definition, if any. -/
def Env.typeClass (env : Env) (t : Nat) : Option DexClass :=
  env.classes.find? (fun c => decide (c.type = t))

/-- ReleaseToFrameworkIndex: release identity to framework identity. -/
abbrev R2F := List (Nat × Nat)

/-- CandidateMapping (m_types_to_framework_api). -/
abbrev Mapping := List (Nat × FrameworkAPI)

/-- Modelled from the spec: the signature-substitution collaborator
(type_reference::get_new_proto lives outside this repository's sources);
per the spec it substitutes a single type via the release-to-framework
map, a type absent from the map passing through unchanged. -/
def substType (r2f : R2F) (t : Nat) : Nat :=
  (lookupM r2f t).getD t

/-- Modelled from the spec: get_new_proto substitutes every parameter and
return type of a proto via the release-to-framework map. -/
def get_new_proto (p : Proto) (r2f : R2F) : Proto :=
  { rtype := substType r2f p.rtype, args := p.args.map (substType r2f) }

/-- find_method (lines 131-141): linear scan of the framework member set for
a method reference with this name and proto. -/
def find_method (methName : String) (methProto : Proto) (mrefs : List MethodRef) : Bool :=
  mrefs.any (fun mr => decide (mr.name = methName) && decide (mr.proto = methProto))

/-- check_methods (lines 148-173): every public method of the list must have
a substituted-proto counterpart in the framework member set; non-public
methods are skipped; the empty list passes trivially. -/
def check_methods (methods : List DexMethod) (framework_api : FrameworkAPI)
    (release_to_framework : R2F) : Bool :=
  methods.all (fun meth =>
    if meth.isPublic then
      find_method meth.name (get_new_proto meth.proto release_to_framework)
        framework_api.mrefs
    else true)

/-- find_field (lines 175-185). -/
def find_field (fieldName : String) (fieldType : Nat) (frefs : List FieldRef) : Bool :=
  frefs.any (fun fr => decide (fr.name = fieldName) && decide (fr.type = fieldType))

/-- check_fields (lines 187-216): every public field must have a same-name
field of the substituted type in the framework member set; the substitution
is inlined in the source (map find, fall back to the original type). -/
def check_fields (fields : List DexField) (framework_api : FrameworkAPI)
    (release_to_framework : R2F) : Bool :=
  fields.all (fun field =>
    if field.isPublic then
      let new_field_type :=
        match lookupM release_to_framework field.type with
        | some t => t
        | none => field.type
      find_field field.name new_field_type framework_api.frefs
    else true)

/-- check_members (lines 222-243): direct methods, virtual methods, static
fields, instance fields, in that order. -/
def check_members (cls : DexClass) (framework_api : FrameworkAPI)
    (release_to_framework : R2F) : Bool :=
  check_methods cls.dmethods framework_api release_to_framework &&
  check_methods cls.vmethods framework_api release_to_framework &&
  check_fields cls.sfields framework_api release_to_framework &&
  check_fields cls.ifields framework_api release_to_framework

/-- check_if_present (lines 245-261): a hierarchy type passes when it has no
class definition, is external, or is a key of the index. -/
def check_if_present (env : Env) (types : List Nat) (release_to_framework : R2F) : Bool :=
  types.all (fun t =>
    match env.typeClass t with
    | none => true
    | some cls => cls.isExternal || (lookupM release_to_framework t).isSome)

/-- check_hierarchy (lines 263-301). The framework_api argument is accepted
and unused, as in the source. -/
def check_hierarchy (env : Env) (cls : DexClass) (framework_api : FrameworkAPI)
    (release_to_framework : R2F) : Bool :=
  if cls.isInterface then
    check_if_present env (env.allSuperInterfaces cls.type) release_to_framework
  else
    check_if_present env (env.implementedInterfaces cls.type) release_to_framework &&
    (decide (cls.superClass = env.javaLangObject) ||
      (lookupM release_to_framework cls.superClass).isSome)

/-- One pair's validation inside the resolver loop (lines 327-340): the pair
is kept iff check_members and check_hierarchy both pass. The source asserts
that type_class resolves every key (always_assert(cls), line 329); the loop
is only ever reached with mappings whose keys all resolve, so the
unreachable none branch keeps the pair. -/
def pairOk (env : Env) (release_to_framework : R2F) (p : Nat × FrameworkAPI) : Bool :=
  match env.typeClass p.1 with
  | none => true
  | some cls =>
    check_members cls p.2 release_to_framework &&
    check_hierarchy env cls p.2 release_to_framework

/-- The per-pass recomputation of ReleaseToFrameworkIndex (lines 322-325). -/
def releaseToFramework (m : Mapping) : R2F :=
  m.map (fun p => (p.1, p.2.cls))

/-- One iteration of the resolver loop (lines 318-348): every pair is judged
against the same snapshot index, and all failing pairs are removed together.
Removing the accumulated to_remove keys from a unique-key map is filtering
by the pass predicate. -/
def resolverPass (env : Env) (m : Mapping) : Mapping :=
  m.filter (pairOk env (releaseToFramework m))

/-- The fixed-point loop with explicit fuel: a pass that removes nothing
(the lengths agree, i.e. to_remove was empty) halts the loop. -/
def resolveAux (env : Env) : Nat → Mapping → Mapping
  | 0, m => m
  | Nat.succ fuel, m =>
    let m' := resolverPass env m
    if m'.length = m.length then m else resolveAux env fuel m'

/-- check_and_update_release_to_framework (lines 313-350): run the loop; the
initial mapping size is enough fuel to reach the fixed point. -/
def check_and_update_release_to_framework (env : Env) (m : Mapping) : Mapping :=
  resolveAux env m.length m

/-- filter_types (lines 392-400): erase every supplied key, then re-run the
resolver to convergence. -/
def filter_types (env : Env) (types : List Nat) (m : Mapping) : Mapping :=
  check_and_update_release_to_framework env
    (m.filter (fun p => !(decide (p.1 ∈ types))))

/-- The simple-name extraction of get_simple_deobfuscated_name applied to a
full name (lines 91-94): everything after the last slash, minus the final
character; no slash at all trips an always_assert (modelled as none). -/
def simple_name_of (s : String) : Option String :=
  if s.data.contains '/' then
    some (String.mk (((s.data.reverse.takeWhile (fun c => c ≠ '/')).reverse).dropLast))
  else
    none

/-- get_simple_deobfuscated_name (lines 81-95): prefer the class's
deobfuscated name when a class exists and the name is nonempty, otherwise
the type's own string. -/
def get_simple_deobfuscated_name (env : Env) (t : Nat) : Option String :=
  let full_name :=
    match env.typeClass t with
    | some cls => if cls.deobfuscatedName = "" then env.typeStr t else cls.deobfuscatedName
    | none => env.typeStr t
  simple_name_of full_name

/-- The accumulation loop of get_simple_cls_name_to_accepted_types
(lines 105-118): emplace keeps the first claimant of a simple name; a failed
emplace records the name in the filter list. -/
def build_simple_index_go (env : Env) :
    List (Nat × FrameworkAPI) → List String → List (String × Nat) →
    Option (List String × List (String × Nat))
  | [], filterNames, idx => some (filterNames, idx)
  | p :: rest, filterNames, idx =>
    match get_simple_deobfuscated_name env p.1 with
    | none => none
    | some sn =>
      if (lookupM idx sn).isSome then
        build_simple_index_go env rest (sn :: filterNames) idx
      else
        build_simple_index_go env rest filterNames (idx ++ [(sn, p.1)])

/-- get_simple_cls_name_to_accepted_types (lines 102-125): build the simple
name index, then erase every name that collided. -/
def get_simple_cls_name_to_accepted_types (env : Env)
    (framework_cls_to_api : List (Nat × FrameworkAPI)) :
    Option (List (String × Nat)) :=
  (build_simple_index_go env framework_cls_to_api [] []).map
    (fun st => st.2.filter (fun e => !(decide (e.1 ∈ st.1))))

/-- unordered_map assignment m[k] = v: overwrite an existing key, otherwise
append. -/
def insertM (m : Mapping) (k : Nat) (v : FrameworkAPI) : Mapping :=
  if (lookupM m k).isSome then
    m.map (fun p => if p.1 = k then (k, v) else p)
  else
    m ++ [(k, v)]

/-- The release-library naming-convention marker (line 371). -/
def androidxMarker : String := "Landroidx"

/-- boost::starts_with, modelled at the character level: the marker's
characters are a prefix of the string's characters. -/
def starts_with (s marker : String) : Bool :=
  marker.data.isPrefixOf s.data

/-- The scope scan of load_types_to_framework_api (lines 362-386). The seen
set threads the source's simple_names_releases: checked by the
always_assert at line 382 (modelled as none) but never inserted into
anywhere in the source, exactly as written. -/
def load_types_go (env : Env) (fw : List (Nat × FrameworkAPI))
    (idx : List (String × Nat)) :
    List DexClass → List String → Mapping → Option Mapping
  | [], _, acc => some acc
  | cls :: rest, seen, acc =>
    if cls.isExternal then
      load_types_go env fw idx rest seen acc
    else if starts_with cls.deobfuscatedName androidxMarker then
      match get_simple_deobfuscated_name env cls.type with
      | none => none
      | some sn =>
        match lookupM idx sn with
        | none => load_types_go env fw idx rest seen acc
        | some fwType =>
          if sn ∈ seen then none
          else
            load_types_go env fw idx rest seen
              (insertM acc cls.type ((lookupM fw fwType).getD ⟨0, [], []⟩))
    else
      load_types_go env fw idx rest seen acc

/-- load_types_to_framework_api (lines 356-390), taking the already-loaded
framework catalogue: build the simple-name index, scan the scope for release
classes, then run the resolver on the initial mapping. -/
def load_types_to_framework_api (env : Env)
    (fw : List (Nat × FrameworkAPI)) : Option Mapping :=
  match get_simple_cls_name_to_accepted_types env fw with
  | none => none
  | some idx =>
    match load_types_go env fw idx env.classes [] [] with
    | none => none
    | some m => some (check_and_update_release_to_framework env m)

/-! Helper lemmas about the association-list operations. -/

theorem lookupM_cons {κ α : Type} [DecidableEq κ] (a : κ) (b : α)
    (m : List (κ × α)) (k : κ) :
    lookupM ((a, b) :: m) k = if a = k then some b else lookupM m k := by
  by_cases h : a = k <;> simp [lookupM, List.find?_cons, h]

theorem lookupM_eq_none_iff {κ α : Type} [DecidableEq κ] (m : List (κ × α)) (k : κ) :
    lookupM m k = none ↔ ∀ p ∈ m, p.1 ≠ k := by
  simp [lookupM, List.find?_eq_none]

theorem lookupM_isSome_iff {κ α : Type} [DecidableEq κ] (m : List (κ × α)) (k : κ) :
    (lookupM m k).isSome = true ↔ k ∈ m.map Prod.fst := by
  induction m with
  | nil => simp [lookupM]
  | cons p rest ih =>
    obtain ⟨a, b⟩ := p
    rw [lookupM_cons]
    by_cases h : a = k
    · subst h; simp
    · rw [if_neg h, ih]
      simp only [List.map_cons, List.mem_cons]
      constructor
      · exact Or.inr
      · rintro (rfl | hk)
        · exact absurd rfl h
        · exact hk

theorem lookupM_releaseToFramework (m : Mapping) (t : Nat) :
    lookupM (releaseToFramework m) t = (lookupM m t).map FrameworkAPI.cls := by
  induction m with
  | nil => rfl
  | cons p rest ih =>
    obtain ⟨a, b⟩ := p
    show lookupM ((a, b.cls) :: releaseToFramework rest) t = _
    rw [lookupM_cons, lookupM_cons]
    by_cases h : a = t <;> simp [h, ih]

theorem filter_eq_self_of_length {α : Type} (p : α → Bool) (l : List α)
    (h : (l.filter p).length = l.length) : l.filter p = l := by
  induction l with
  | nil => rfl
  | cons a l ih =>
    rw [List.filter_cons] at h ⊢
    by_cases hp : p a = true
    · rw [if_pos hp] at h ⊢
      simp only [List.length_cons, Nat.succ.injEq] at h
      rw [ih h]
    · rw [if_neg hp] at h ⊢
      have hle := List.length_filter_le p l
      rw [List.length_cons] at h
      exact absurd h (by omega)

/-! Helper lemmas about the fixed-point loop. -/

theorem resolveAux_fixed (env : Env) :
    ∀ (fuel : Nat) (m : Mapping), m.length ≤ fuel →
      resolverPass env (resolveAux env fuel m) = resolveAux env fuel m := by
  intro fuel
  induction fuel with
  | zero =>
    intro m hm
    have hnil : m = [] := List.length_eq_zero.mp (Nat.le_zero.mp hm)
    subst hnil
    rfl
  | succ fuel ih =>
    intro m hm
    by_cases h : (resolverPass env m).length = m.length
    · have hfix : resolverPass env m = m := filter_eq_self_of_length _ m h
      simp only [resolveAux, h, if_true]
      exact hfix
    · have hlt : (resolverPass env m).length < m.length :=
        Nat.lt_of_le_of_ne (List.length_filter_le _ m) h
      simp only [resolveAux, h, if_false]
      exact ih (resolverPass env m) (Nat.le_of_lt_succ (Nat.lt_of_lt_of_le hlt hm))

theorem resolveAux_of_pass_fixed (env : Env) (fuel : Nat) (m : Mapping)
    (h : resolverPass env m = m) : resolveAux env fuel m = m := by
  cases fuel with
  | zero => rfl
  | succ fuel => simp only [resolveAux, h, if_true]

theorem resolveAux_stable (env : Env) :
    ∀ (f1 f2 : Nat) (m : Mapping), m.length ≤ f1 → f1 ≤ f2 →
      resolveAux env f2 m = resolveAux env f1 m := by
  intro f1
  induction f1 with
  | zero =>
    intro f2 m hm _
    have hnil : m = [] := List.length_eq_zero.mp (Nat.le_zero.mp hm)
    subst hnil
    rw [resolveAux_of_pass_fixed env f2 [] rfl]
    rfl
  | succ f1 ih =>
    intro f2 m hm hle
    obtain ⟨f2', rfl⟩ : ∃ f2', f2 = f2' + 1 :=
      ⟨f2 - 1, by omega⟩
    by_cases h : (resolverPass env m).length = m.length
    · simp only [resolveAux, h, if_true]
    · have hlt : (resolverPass env m).length < m.length :=
        Nat.lt_of_le_of_ne (List.length_filter_le _ m) h
      simp only [resolveAux, h, if_false]
      exact ih f2' (resolverPass env m)
        (Nat.le_of_lt_succ (Nat.lt_of_lt_of_le hlt hm)) (by omega)

theorem resolveAux_sublist (env : Env) :
    ∀ (fuel : Nat) (m : Mapping), (resolveAux env fuel m).Sublist m := by
  intro fuel
  induction fuel with
  | zero => intro m; exact List.Sublist.refl m
  | succ fuel ih =>
    intro m
    by_cases h : (resolverPass env m).length = m.length
    · simp only [resolveAux, h, if_true]
      exact List.Sublist.refl m
    · simp only [resolveAux, h, if_false]
      exact (ih (resolverPass env m)).trans (List.filter_sublist m)

/-! Spec-side predicates, stated from the spec's words, to be compared with
the definitions embedded from the source. -/

/-- Stated from the spec's glossary: an external type is a type not defined
within the analyzed program. A hierarchy type with no class definition is
not defined within the program, as is a class definition marked external. -/
def external_type (env : Env) (t : Nat) : Bool :=
  match env.typeClass t with
  | none => true
  | some cls => cls.isExternal

/-- Stated from the spec's words (member-check): every public method
declared directly on R, in both method sets, must have a counterpart of the
same name and substituted proto in F's member set, and every public field a
same-name field of the substituted type. -/
def member_check_spec (cls : DexClass) (framework_api : FrameworkAPI) (r2f : R2F) : Prop :=
  (∀ meth ∈ cls.dmethods ++ cls.vmethods, meth.isPublic = true →
    ∃ mr ∈ framework_api.mrefs,
      mr.name = meth.name ∧ mr.proto = get_new_proto meth.proto r2f) ∧
  (∀ field ∈ cls.sfields ++ cls.ifields, field.isPublic = true →
    ∃ fr ∈ framework_api.frefs,
      fr.name = field.name ∧ fr.type = substType r2f field.type)

/-- Stated from the spec's words (hierarchy-check): a concrete class needs
every implemented interface external or a key of the index, and its
immediate superclass the root object type or a key of the index; an
interface needs every transitively extended interface external or a key. -/
def hierarchy_check_spec (env : Env) (cls : DexClass) (r2f : R2F) : Prop :=
  if cls.isInterface then
    ∀ t ∈ env.allSuperInterfaces cls.type,
      external_type env t = true ∨ (lookupM r2f t).isSome = true
  else
    (∀ t ∈ env.implementedInterfaces cls.type,
      external_type env t = true ∨ (lookupM r2f t).isSome = true) ∧
    (cls.superClass = env.javaLangObject ∨ (lookupM r2f cls.superClass).isSome = true)

theorem bool_if_eq_true (b x : Bool) :
    ((if b then x else true) = true) ↔ (b = true → x = true) := by
  cases b <;> simp

theorem check_methods_iff (methods : List DexMethod) (framework_api : FrameworkAPI)
    (r2f : R2F) :
    check_methods methods framework_api r2f = true ↔
      ∀ meth ∈ methods, meth.isPublic = true →
        ∃ mr ∈ framework_api.mrefs,
          mr.name = meth.name ∧ mr.proto = get_new_proto meth.proto r2f := by
  unfold check_methods find_method
  simp only [List.all_eq_true, bool_if_eq_true, List.any_eq_true, Bool.and_eq_true,
    decide_eq_true_eq]

theorem check_fields_iff (fields : List DexField) (framework_api : FrameworkAPI)
    (r2f : R2F) :
    check_fields fields framework_api r2f = true ↔
      ∀ field ∈ fields, field.isPublic = true →
        ∃ fr ∈ framework_api.frefs,
          fr.name = field.name ∧ fr.type = substType r2f field.type := by
  unfold check_fields find_field
  simp only [List.all_eq_true, bool_if_eq_true]
  refine forall_congr' fun field => forall_congr' fun _ => forall_congr' fun _ => ?_
  cases hl : lookupM r2f field.type <;>
    simp [List.any_eq_true, substType, hl]

/-- C3: for every candidate pair and index, the member-check succeeds iff
every public method declared directly on R (direct-dispatch and instance
sets alike) has a same-name, substituted-signature counterpart in F's
member set and every public field a same-name field of the substituted
type; non-public members never affect the result, and empty member lists
pass trivially. -/
theorem check_members_iff_spec (cls : DexClass) (framework_api : FrameworkAPI)
    (r2f : R2F) :
    check_members cls framework_api r2f = true ↔
      member_check_spec cls framework_api r2f := by
  unfold check_members member_check_spec
  simp only [Bool.and_eq_true, check_methods_iff, check_fields_iff,
    List.forall_mem_append]
  tauto

theorem check_if_present_iff (env : Env) (types : List Nat) (r2f : R2F) :
    check_if_present env types r2f = true ↔
      ∀ t ∈ types, external_type env t = true ∨ (lookupM r2f t).isSome = true := by
  unfold check_if_present external_type
  simp only [List.all_eq_true]
  refine forall_congr' fun t => forall_congr' fun _ => ?_
  cases h : env.typeClass t <;> simp [h]

/-- C4: the hierarchy-check passes for a concrete class exactly when every
implemented interface is external or a key of the index and the immediate
superclass is the root object type or a key; for an interface, exactly when
every transitively extended interface is external or a key. -/
theorem check_hierarchy_iff_spec (env : Env) (cls : DexClass)
    (framework_api : FrameworkAPI) (r2f : R2F) :
    check_hierarchy env cls framework_api r2f = true ↔
      hierarchy_check_spec env cls r2f := by
  unfold check_hierarchy hierarchy_check_spec
  by_cases h : cls.isInterface = true
  · rw [if_pos h, if_pos h, check_if_present_iff]
  · rw [if_neg h, if_neg h]
    simp only [Bool.and_eq_true, Bool.or_eq_true, decide_eq_true_eq, check_if_present_iff]

/-- C10: a hierarchy type with no class definition never affects
check_if_present, even when it is not a key of the index (and has no class
definition that could mark it external). -/
theorem unresolved_hierarchy_type_ignored (env : Env) (t : Nat) (types : List Nat)
    (r2f : R2F) (hcls : env.typeClass t = none) (_hkey : lookupM r2f t = none) :
    check_if_present env (t :: types) r2f = check_if_present env types r2f := by
  unfold check_if_present
  rw [List.all_cons]
  simp [hcls]

/-- C6: a resolver pass, a full resolver run and a filter_types call never
add a key to the candidate mapping, and never increase its size. -/
theorem mapping_never_grows (env : Env) (m : Mapping) (types : List Nat) :
    ((resolverPass env m).map Prod.fst ⊆ m.map Prod.fst ∧
      (resolverPass env m).length ≤ m.length) ∧
    ((check_and_update_release_to_framework env m).map Prod.fst ⊆ m.map Prod.fst ∧
      (check_and_update_release_to_framework env m).length ≤ m.length) ∧
    ((filter_types env types m).map Prod.fst ⊆ m.map Prod.fst ∧
      (filter_types env types m).length ≤ m.length) := by
  have h1 : (resolverPass env m).Sublist m := List.filter_sublist m
  have h2 : (check_and_update_release_to_framework env m).Sublist m :=
    resolveAux_sublist env m.length m
  have h3 : (filter_types env types m).Sublist m :=
    (resolveAux_sublist env _ _).trans (List.filter_sublist m)
  exact ⟨⟨(h1.map Prod.fst).subset, h1.length_le⟩,
    ⟨(h2.map Prod.fst).subset, h2.length_le⟩,
    ⟨(h3.map Prod.fst).subset, h3.length_le⟩⟩

/-- C7: the fixed-point loop terminates on every input: with fuel equal to
the initial mapping size it has already reached a pass fixed point, and any
amount of fuel at least the initial size produces the same result. -/
theorem resolver_terminates (env : Env) (m : Mapping) :
    resolverPass env (check_and_update_release_to_framework env m) =
      check_and_update_release_to_framework env m ∧
    ∀ fuel : Nat, m.length ≤ fuel →
      resolveAux env fuel m = check_and_update_release_to_framework env m := by
  constructor
  · exact resolveAux_fixed env m.length m (Nat.le_refl _)
  · intro fuel hf
    exact resolveAux_stable env m.length fuel m (Nat.le_refl _) hf

/-- C9: re-running the resolver on an already-converged mapping removes
nothing: the resolver is idempotent. -/
theorem resolver_idempotent (env : Env) (m : Mapping) :
    check_and_update_release_to_framework env
        (check_and_update_release_to_framework env m) =
      check_and_update_release_to_framework env m := by
  unfold check_and_update_release_to_framework
  exact resolveAux_of_pass_fixed env _ _ (resolveAux_fixed env m.length m (Nat.le_refl _))

/-- C1: after the resolver converges, every surviving pair whose key
resolves to a class satisfies both the member-check and the
hierarchy-check evaluated against the final mapping. -/
theorem converged_pairs_satisfy_checks (env : Env) (m : Mapping)
    (p : Nat × FrameworkAPI) (cls : DexClass)
    (hmem : p ∈ check_and_update_release_to_framework env m)
    (hcls : env.typeClass p.1 = some cls) :
    check_members cls p.2
        (releaseToFramework (check_and_update_release_to_framework env m)) = true ∧
    check_hierarchy env cls p.2
        (releaseToFramework (check_and_update_release_to_framework env m)) = true := by
  have hfix : resolverPass env (check_and_update_release_to_framework env m) =
      check_and_update_release_to_framework env m :=
    resolveAux_fixed env m.length m (Nat.le_refl _)
  unfold resolverPass at hfix
  have hq := List.filter_eq_self.mp hfix p hmem
  simp only [pairOk, hcls, Bool.and_eq_true] at hq
  exact hq

/-! Lemmas about the simple-name index construction. -/

theorem build_go_mono (env : Env) :
    ∀ (l : List (Nat × FrameworkAPI)) (f0 : List String) (i0 : List (String × Nat))
      (fOut : List String) (iOut : List (String × Nat)),
      build_simple_index_go env l f0 i0 = some (fOut, iOut) →
      (∀ s, s ∈ f0 → s ∈ fOut) ∧
      (∀ s, s ∈ i0.map Prod.fst → s ∈ iOut.map Prod.fst) := by
  intro l
  induction l with
  | nil =>
    intro f0 i0 fOut iOut h
    simp only [build_simple_index_go, Option.some.injEq, Prod.mk.injEq] at h
    obtain ⟨h1, h2⟩ := h
    subst h1; subst h2
    exact ⟨fun s hs => hs, fun s hs => hs⟩
  | cons p rest ih =>
    intro f0 i0 fOut iOut h
    simp only [build_simple_index_go] at h
    cases hn : get_simple_deobfuscated_name env p.1 with
    | none => simp only [hn] at h; simp at h
    | some sn =>
      simp only [hn] at h
      by_cases hm : (lookupM i0 sn).isSome = true
      · rw [if_pos hm] at h
        obtain ⟨hf, hi⟩ := ih _ _ _ _ h
        exact ⟨fun s hs => hf s (List.mem_cons_of_mem _ hs), hi⟩
      · rw [if_neg hm] at h
        obtain ⟨hf, hi⟩ := ih _ _ _ _ h
        refine ⟨hf, fun s hs => hi s ?_⟩
        rw [List.map_append, List.mem_append]
        exact Or.inl hs

theorem build_go_collision (env : Env) :
    ∀ (l : List (Nat × FrameworkAPI)) (f0 : List String) (i0 : List (String × Nat))
      (fOut : List String) (iOut : List (String × Nat)) (t : Nat) (a : FrameworkAPI)
      (sn : String),
      build_simple_index_go env l f0 i0 = some (fOut, iOut) →
      sn ∈ i0.map Prod.fst →
      (t, a) ∈ l →
      get_simple_deobfuscated_name env t = some sn →
      sn ∈ fOut := by
  intro l
  induction l with
  | nil =>
    intro _ _ _ _ _ _ _ _ _ hmem _
    exact absurd hmem (List.not_mem_nil _)
  | cons p rest ih =>
    intro f0 i0 fOut iOut t a sn h hkey hmem hname
    simp only [build_simple_index_go] at h
    rcases List.mem_cons.mp hmem with heq | htail
    · subst heq
      simp only [hname] at h
      have hm : (lookupM i0 sn).isSome = true := (lookupM_isSome_iff _ _).mpr hkey
      rw [if_pos hm] at h
      exact (build_go_mono env rest _ _ _ _ h).1 sn (List.mem_cons_self sn f0)
    · cases hn : get_simple_deobfuscated_name env p.1 with
      | none => simp only [hn] at h; simp at h
      | some sn' =>
        simp only [hn] at h
        by_cases hm : (lookupM i0 sn').isSome = true
        · rw [if_pos hm] at h
          exact ih _ _ _ _ t a sn h hkey htail hname
        · rw [if_neg hm] at h
          refine ih _ _ _ _ t a sn h ?_ htail hname
          rw [List.map_append, List.mem_append]
          exact Or.inl hkey

theorem build_go_both (env : Env) :
    ∀ (l : List (Nat × FrameworkAPI)) (f0 : List String) (i0 : List (String × Nat))
      (fOut : List String) (iOut : List (String × Nat)) (t1 t2 : Nat)
      (a1 a2 : FrameworkAPI) (sn : String),
      build_simple_index_go env l f0 i0 = some (fOut, iOut) →
      (t1, a1) ∈ l → (t2, a2) ∈ l → t1 ≠ t2 →
      get_simple_deobfuscated_name env t1 = some sn →
      get_simple_deobfuscated_name env t2 = some sn →
      sn ∈ fOut := by
  intro l
  induction l with
  | nil =>
    intro _ _ _ _ _ _ _ _ _ _ h1 _ _ _ _
    exact absurd h1 (List.not_mem_nil _)
  | cons p rest ih =>
    intro f0 i0 fOut iOut t1 t2 a1 a2 sn h h1 h2 hne hn1 hn2
    simp only [build_simple_index_go] at h
    rcases List.mem_cons.mp h1 with he1 | ht1
    · subst he1
      have ht2 : (t2, a2) ∈ rest := by
        rcases List.mem_cons.mp h2 with he2 | ht2
        · exact absurd (congrArg Prod.fst he2).symm hne
        · exact ht2
      simp only [hn1] at h
      by_cases hm : (lookupM i0 sn).isSome = true
      · rw [if_pos hm] at h
        exact (build_go_mono env rest _ _ _ _ h).1 sn (List.mem_cons_self _ _)
      · rw [if_neg hm] at h
        refine build_go_collision env rest _ _ _ _ t2 a2 sn h ?_ ht2 hn2
        rw [List.map_append, List.mem_append]
        right; simp
    · rcases List.mem_cons.mp h2 with he2 | ht2
      · subst he2
        simp only [hn2] at h
        by_cases hm : (lookupM i0 sn).isSome = true
        · rw [if_pos hm] at h
          exact (build_go_mono env rest _ _ _ _ h).1 sn (List.mem_cons_self _ _)
        · rw [if_neg hm] at h
          refine build_go_collision env rest _ _ _ _ t1 a1 sn h ?_ ht1 hn1
          rw [List.map_append, List.mem_append]
          right; simp
      · cases hn : get_simple_deobfuscated_name env p.1 with
        | none => simp only [hn] at h; simp at h
        | some sn' =>
          simp only [hn] at h
          by_cases hm : (lookupM i0 sn').isSome = true
          · rw [if_pos hm] at h
            exact ih _ _ _ _ t1 t2 a1 a2 sn h ht1 ht2 hne hn1 hn2
          · rw [if_neg hm] at h
            exact ih _ _ _ _ t1 t2 a1 a2 sn h ht1 ht2 hne hn1 hn2

/-- C5: a simple name claimed by two distinct framework classes is entirely
absent from the resulting simple-name index, so no release class can be
paired with either colliding class. -/
theorem colliding_simple_name_unreachable (env : Env)
    (fw : List (Nat × FrameworkAPI)) (idx : List (String × Nat))
    (t1 t2 : Nat) (a1 a2 : FrameworkAPI) (sn : String)
    (hidx : get_simple_cls_name_to_accepted_types env fw = some idx)
    (h1 : (t1, a1) ∈ fw) (h2 : (t2, a2) ∈ fw) (hne : t1 ≠ t2)
    (hn1 : get_simple_deobfuscated_name env t1 = some sn)
    (hn2 : get_simple_deobfuscated_name env t2 = some sn) :
    lookupM idx sn = none := by
  unfold get_simple_cls_name_to_accepted_types at hidx
  cases hgo : build_simple_index_go env fw [] [] with
  | none => rw [hgo] at hidx; simp at hidx
  | some st =>
    obtain ⟨fOut, iOut⟩ := st
    rw [hgo] at hidx
    simp only [Option.map_some', Option.some.injEq] at hidx
    have hsn : sn ∈ fOut :=
      build_go_both env fw [] [] fOut iOut t1 t2 a1 a2 sn hgo h1 h2 hne hn1 hn2
    subst hidx
    rw [lookupM_eq_none_iff]
    intro p hp hpk
    rw [List.mem_filter] at hp
    have h2 := hp.2
    rw [hpk] at h2
    simp [hsn] at h2

/-- C8: filter_types removes every entry whose key is in the supplied set,
leaves the mapping at a resolver fixed point, and cascades: a pair that
fails validation under every mapping lacking a given key is gone after that
key is filtered out, within the same call. -/
theorem filter_types_removes_and_reconverges (env : Env) (types : List Nat)
    (m : Mapping) :
    (∀ t ∈ types, lookupM (filter_types env types m) t = none) ∧
    resolverPass env (filter_types env types m) = filter_types env types m ∧
    ∀ (A B : Nat) (FA : FrameworkAPI), B ∈ types →
      (∀ m' : Mapping, lookupM m' B = none →
        pairOk env (releaseToFramework m') (A, FA) = false) →
      (A, FA) ∉ filter_types env types m := by
  have hnone : ∀ t ∈ types, lookupM (filter_types env types m) t = none := by
    intro t ht
    rw [lookupM_eq_none_iff]
    intro p hp hpk
    unfold filter_types check_and_update_release_to_framework at hp
    have hp' := (resolveAux_sublist env _ _).subset hp
    rw [List.mem_filter] at hp'
    have h2 := hp'.2
    rw [hpk] at h2
    simp [ht] at h2
  have hfix : resolverPass env (filter_types env types m) = filter_types env types m := by
    unfold filter_types check_and_update_release_to_framework
    exact resolveAux_fixed env _ _ (Nat.le_refl _)
  refine ⟨hnone, hfix, ?_⟩
  intro A B FA hB hdep hmem
  have hfix2 := hfix
  unfold resolverPass at hfix2
  have hok : pairOk env (releaseToFramework (filter_types env types m)) (A, FA) = true :=
    List.filter_eq_self.mp hfix2 _ hmem
  have hbad := hdep (filter_types env types m) (hnone B hB)
  rw [hok] at hbad
  exact Bool.noConfusion hbad

/-! Concrete instances used by the evidence theorem for the scope scan and
by the witnesses. -/

def fooSimpleName : String := "Foo"
def fwFooName : String := "Landroid/x/Foo;"
def fwBarName : String := "Landroid/y/Foo;"
def axFooAName : String := "Landroidx/a/Foo;"
def axFooBName : String := "Landroidx/b/Foo;"
def otherName : String := "LX/x;"

def fwApiFoo : FrameworkAPI := { cls := 10, mrefs := [], frefs := [] }

def clsAxA : DexClass :=
  { type := 1, deobfuscatedName := axFooAName, isExternal := false,
    isInterface := false, superClass := 0, dmethods := [], vmethods := [],
    sfields := [], ifields := [] }

def clsAxB : DexClass :=
  { type := 2, deobfuscatedName := axFooBName, isExternal := false,
    isInterface := false, superClass := 0, dmethods := [], vmethods := [],
    sfields := [], ifields := [] }

def envC2 : Env :=
  { classes := [clsAxA, clsAxB],
    implementedInterfaces := fun _ => [],
    allSuperInterfaces := fun _ => [],
    typeStr := fun t => if t = 10 then fwFooName else otherName,
    javaLangObject := 0 }

def fwC2 : List (Nat × FrameworkAPI) := [(10, fwApiFoo)]

/-- C2: executed on a scope holding two distinct internal release classes
that share the simple name Foo (both matching the naming convention, Foo
present in the simple-name index), the scope scan completes and maps both
classes instead of aborting: the set guarding the duplicate assert
(simple_names_releases, line 362) is never inserted into, so the
always_assert at line 382 can never fire. -/
theorem load_duplicate_simple_name_completes :
    (load_types_to_framework_api envC2 fwC2).isSome = true ∧
    ((load_types_to_framework_api envC2 fwC2).getD []).map Prod.fst = [1, 2] := by
  decide

def apiW : FrameworkAPI := { cls := 100, mrefs := [], frefs := [] }

def clsW : DexClass :=
  { type := 1, deobfuscatedName := otherName, isExternal := false,
    isInterface := false, superClass := 0, dmethods := [], vmethods := [],
    sfields := [], ifields := [] }

def envW : Env :=
  { classes := [clsW],
    implementedInterfaces := fun _ => [],
    allSuperInterfaces := fun _ => [],
    typeStr := fun _ => otherName,
    javaLangObject := 0 }

def mW : Mapping := [(1, apiW)]

theorem converged_pairs_satisfy_checks_witness :
    check_members clsW apiW
        (releaseToFramework (check_and_update_release_to_framework envW mW)) = true ∧
    check_hierarchy envW clsW apiW
        (releaseToFramework (check_and_update_release_to_framework envW mW)) = true :=
  converged_pairs_satisfy_checks envW mW (1, apiW) clsW (by decide) (by decide)

theorem resolver_terminates_witness :
    resolveAux envW 3 mW = check_and_update_release_to_framework envW mW :=
  (resolver_terminates envW mW).2 3 (by decide)

theorem unresolved_hierarchy_type_ignored_witness :
    check_if_present envW [5] [] = check_if_present envW ([] : List Nat) [] :=
  unresolved_hierarchy_type_ignored envW 5 [] [] (by decide) (by decide)

def fwApiX : FrameworkAPI := { cls := 10, mrefs := [], frefs := [] }
def fwApiY : FrameworkAPI := { cls := 11, mrefs := [], frefs := [] }

def envC5 : Env :=
  { classes := [],
    implementedInterfaces := fun _ => [],
    allSuperInterfaces := fun _ => [],
    typeStr := fun t => if t = 10 then fwFooName else if t = 11 then fwBarName else otherName,
    javaLangObject := 0 }

def fwC5 : List (Nat × FrameworkAPI) := [(10, fwApiX), (11, fwApiY)]

theorem colliding_simple_name_unreachable_witness :
    lookupM ([] : List (String × Nat)) fooSimpleName = none :=
  colliding_simple_name_unreachable envC5 fwC5 [] 10 11 fwApiX fwApiY fooSimpleName
    (by decide) (by decide) (by decide) (by decide) (by decide) (by decide)

def apiA : FrameworkAPI := { cls := 101, mrefs := [], frefs := [] }
def apiB : FrameworkAPI := { cls := 102, mrefs := [], frefs := [] }

def clsA8 : DexClass :=
  { type := 1, deobfuscatedName := otherName, isExternal := false,
    isInterface := false, superClass := 2, dmethods := [], vmethods := [],
    sfields := [], ifields := [] }

def clsB8 : DexClass :=
  { type := 2, deobfuscatedName := otherName, isExternal := false,
    isInterface := false, superClass := 0, dmethods := [], vmethods := [],
    sfields := [], ifields := [] }

def env8 : Env :=
  { classes := [clsA8, clsB8],
    implementedInterfaces := fun _ => [],
    allSuperInterfaces := fun _ => [],
    typeStr := fun _ => otherName,
    javaLangObject := 0 }

def m8 : Mapping := [(1, apiA), (2, apiB)]

theorem filter_types_removes_and_reconverges_witness :
    lookupM (filter_types env8 [2] m8) 2 = none ∧
    (1, apiA) ∉ filter_types env8 [2] m8 := by
  have h := filter_types_removes_and_reconverges env8 [2] m8
  refine ⟨h.1 2 (by decide), h.2.2 1 2 apiA (by decide) ?_⟩
  intro m' hm'
  have hr : lookupM (releaseToFramework m') 2 = none := by
    rw [lookupM_releaseToFramework, hm']
    rfl
  have hstep : pairOk env8 (releaseToFramework m') (1, apiA) =
      (lookupM (releaseToFramework m') 2).isSome := rfl
  rw [hstep, hr]
  rfl

end api
